import Mathlib

/-!
Shallow embedding of the todo-list application in `src/script.js`.

The core state of the program is the module-level variables `todos`
(an array of `{ id, text, completed }` objects) and `currentFilter`
(a string), together with the single `localStorage` slot at
`STORAGE_KEY`.  DOM rendering (`renderTodos`, `createTodoElement`,
the counter span, the message span, the input field) only displays
state; we keep the message text in the state record (it is the one
user-observable output of the empty-input path) and drop the rest of
the DOM.

JavaScript numbers are IEEE doubles; every number this program ever
stores or compares is an integer (ids come from `Date.now()`), so we
model a JS number as either an integer or `NaN` (`JsNum`), and JSON
numbers as integers.  `Date.now()` is an external clock; `addTodo`
takes the clock reading as an explicit argument.
-/

namespace TodoApp

/-- A JavaScript number as it occurs in this program: an integer or NaN. -/
inductive JsNum where
  | nan : JsNum
  | int : Int → JsNum
deriving DecidableEq, Repr

/-- A JSON-like JavaScript value.  `jundef` is the `undefined` value
produced by reading a missing property; it never occurs inside a value
returned by `JSON.parse`.  JSON numbers are modelled as integers (see
module comment). -/
inductive JValue where
  | jnull : JValue
  | jundef : JValue
  | jbool : Bool → JValue
  | jnum : Int → JValue
  | jstr : String → JValue
  | jarr : List JValue → JValue
  | jobj : List (String × JValue) → JValue

/-- True exactly on the JS `null` value. -/
def JValue.isNull : JValue → Bool
  | JValue.jnull => true
  | _ => false

/-- True exactly on the JS `undefined` value. -/
def JValue.isUndef : JValue → Bool
  | JValue.jundef => true
  | _ => false

/-- True exactly on arrays, as `Array.isArray` tests. -/
def JValue.isArr : JValue → Bool
  | JValue.jarr _ => true
  | _ => false

mutual

/-- Array `join(",")` over stringified elements, as
`Array.prototype.toString` does when an array is coerced to a string. -/
def arrToString : List JValue → String
  | [] => ""
  | [v] => arrElemToString v
  | v :: w :: rest => arrElemToString v ++ "," ++ arrToString (w :: rest)

/-- In `Array.prototype.join`, `null` and `undefined` elements render
as the empty string; every other element is stringified as `String`
would (nested arrays recurse, nested plain objects print
`"[object Object]"`). -/
def arrElemToString : JValue → String
  | JValue.jnull => ""
  | JValue.jundef => ""
  | JValue.jbool b => if b then "true" else "false"
  | JValue.jnum n => toString n
  | JValue.jstr s => s
  | JValue.jarr elems => arrToString elems
  | JValue.jobj _ => "[object Object]"

end

/-- JS abstract `ToString` operation (`String(v)`), restricted to the
values of this model: `String(undefined) = "undefined"`,
`String(null) = "null"`, booleans and integers print as usual, strings
are themselves, arrays join their elements with commas
(null/undefined elements print empty), plain objects print
`"[object Object]"`. -/
def jsToString : JValue → String
  | JValue.jnull => "null"
  | JValue.jundef => "undefined"
  | JValue.jbool b => if b then "true" else "false"
  | JValue.jnum n => toString n
  | JValue.jstr s => s
  | JValue.jarr elems => arrToString elems
  | JValue.jobj _ => "[object Object]"

/-- JS `String.prototype.trim` over the characters of the string:
strip leading and trailing whitespace.  Defined by structural list
recursion so that concrete calls compute inside proofs. -/
def jsTrim (s : String) : String :=
  String.mk (((s.data.dropWhile Char.isWhitespace).reverse.dropWhile
    Char.isWhitespace).reverse)

/-- JS string-to-number coercion, restricted to integral syntax: a
whitespace-only string coerces to 0, an integer numeral to its value,
anything else to NaN. -/
def strToNumber (s : String) : JsNum :=
  let t := jsTrim s
  if t = "" then JsNum.int 0
  else
    match t.toInt? with
    | some n => JsNum.int n
    | none => JsNum.nan

/-- JS abstract `ToNumber` operation (`Number(v)`): `undefined ↦ NaN`,
`null ↦ 0`, `false/true ↦ 0/1`, numbers are themselves, strings parse
or give NaN, arrays coerce through their string form, plain objects
give NaN (their string form `"[object Object]"` is not numeric). -/
def jsToNumber : JValue → JsNum
  | JValue.jnull => JsNum.int 0
  | JValue.jundef => JsNum.nan
  | JValue.jbool b => JsNum.int (if b then 1 else 0)
  | JValue.jnum n => JsNum.int n
  | JValue.jstr s => strToNumber s
  | JValue.jarr elems => strToNumber (arrToString elems)
  | JValue.jobj _ => JsNum.nan

/-- JS abstract `ToBoolean` operation (`Boolean(v)`): `undefined`,
`null`, `0`, and `""` are falsy; every other value of this model is
truthy. -/
def jsToBoolean : JValue → Bool
  | JValue.jnull => false
  | JValue.jundef => false
  | JValue.jbool b => b
  | JValue.jnum n => n != 0
  | JValue.jstr s => s != ""
  | JValue.jarr _ => true
  | JValue.jobj _ => true

/-- JS property read `v[k]`, as used on elements of a parsed array:
reading a property of `null` or `undefined` throws a TypeError
(modelled as `none`); on an object the own property or `undefined` is
returned; the primitives and arrays of this model have no own property
named `id`, `text` or `completed`, so the read yields `undefined`. -/
def jsGetField : JValue → String → Option JValue
  | JValue.jnull, _ => none
  | JValue.jundef, _ => none
  | JValue.jobj fields, k => some ((fields.lookup k).getD JValue.jundef)
  | _, _ => some JValue.jundef

/-- Strict equality `===` between JS numbers: `NaN` is equal to nothing,
integers compare as integers. -/
def jsNumEq : JsNum → JsNum → Bool
  | JsNum.int a, JsNum.int b => a == b
  | _, _ => false

/-- A todo object `{ id, text, completed }` (src/script.js line 6). -/
structure Item where
  id : JsNum
  text : String
  completed : Bool
deriving DecidableEq, Repr

/-- The raw value held in the `localStorage` slot at `STORAGE_KEY`:
either a string that is not valid JSON (`JSON.parse` throws on it) or
a valid serialization, kept in parsed form (`JSON.parse ∘ JSON.stringify`
is the identity on the values this model serializes). -/
inductive RawValue where
  | malformed : RawValue
  | json : JValue → RawValue

/-- The program state: the module-level `todos` and `currentFilter`
variables, the `localStorage` slot (`none` when the key is absent), a
count of completed `localStorage.setItem` writes, and the text of the
message span set by `setTodoMessage`. -/
structure AppState where
  todos : List Item
  currentFilter : String
  stored : Option RawValue
  writes : Nat
  message : String

/-- Initial module state (src/script.js lines 7, 10): empty todo list,
filter `"all"`, nothing written yet. -/
def initState : AppState :=
  { todos := [], currentFilter := "all", stored := none, writes := 0, message := "" }

/-- JSON.stringify of a JS number inside an object: NaN serializes as
`null`, integers as themselves. -/
def encodeNum : JsNum → JValue
  | JsNum.nan => JValue.jnull
  | JsNum.int n => JValue.jnum n

/-- JSON.stringify of a todo object, with the object's insertion key
order `id`, `text`, `completed`. -/
def encodeItem (it : Item) : JValue :=
  JValue.jobj [("id", encodeNum it.id), ("text", JValue.jstr it.text),
               ("completed", JValue.jbool it.completed)]

/-- `saveTodosToStorage` (src/script.js lines 33-35): overwrite the
storage slot with the serialized `todos` array; one write occurs. -/
def saveTodosToStorage (s : AppState) : AppState :=
  { s with stored := some (RawValue.json (JValue.jarr (s.todos.map encodeItem))),
           writes := s.writes + 1 }

/-- One step of the `parsed.map` callback in `loadTodosFromStorage`
(src/script.js lines 52-57): read the three fields (throwing on a
`null` element) and coerce them with `Number`, `String`, `Boolean`. -/
def coerceItem (v : JValue) : Option Item := do
  let idv ← jsGetField v "id"
  let textv ← jsGetField v "text"
  let compv ← jsGetField v "completed"
  pure { id := jsToNumber idv, text := jsToString textv, completed := jsToBoolean compv }

/-- `parsed.map(...)` over the element coercion: JS `map` runs left to
right and the first thrown TypeError aborts the whole map (it
propagates to the enclosing `try`), so the result is all-or-nothing. -/
def coerceAll : List JValue → Option (List Item)
  | [] => some []
  | v :: rest => do
    let it ← coerceItem v
    let restItems ← coerceAll rest
    pure (it :: restItems)

/-- The value `loadTodosFromStorage` (src/script.js lines 41-65)
assigns to `todos`: `[]` when the key is absent, when `JSON.parse`
throws, when the parsed value is not an array, or when the element
coercion throws (caught by the same `try`); otherwise the coerced
array. -/
def loadList : Option RawValue → List Item
  | none => []
  | some RawValue.malformed => []
  | some (RawValue.json v) =>
    match v with
    | JValue.jarr elems =>
      match coerceAll elems with
      | some items => items
      | none => []
    | _ => []

/-- `loadTodosFromStorage` as a state transformer: replaces `todos`
from the storage slot; never raises to the caller (every failure path
is caught inside and yields `[]`). -/
def loadTodosFromStorage (s : AppState) : AppState :=
  { s with todos := loadList s.stored }

/-- `addTodo` (src/script.js lines 104-126).  `now` is the value of
`Date.now()` at the call.  On blank input the function sets the
message and returns before touching `todos` or storage; otherwise it
pushes the new todo, saves, and clears the message.  The source
function returns `undefined`; we surface the pushed todo (`none` on
the blank-input path) as the operation's result. -/
def addTodo (text : String) (now : Int) (s : AppState) : AppState × Option Item :=
  let trimmedText := jsTrim text
  if trimmedText = "" then
    ({ s with message := "Please enter a todo before adding." }, none)
  else
    let newTodo : Item := { id := JsNum.int now, text := trimmedText, completed := false }
    let s1 := saveTodosToStorage { s with todos := s.todos ++ [newTodo] }
    ({ s1 with message := "" }, some newTodo)

/-- The `todos.map` inside `toggleTodoCompleted` (src/script.js lines
132-134): flip `completed` on every item whose id is `===`-equal to
the argument, copy every other item unchanged. -/
def toggleList (id : JsNum) (ts : List Item) : List Item :=
  ts.map fun todo =>
    if jsNumEq todo.id id then { todo with completed := !todo.completed } else todo

/-- `toggleTodoCompleted` (src/script.js lines 131-139): map over
`todos`, then save unconditionally — the save is not guarded by
whether any item matched, and no not-found signal exists. -/
def toggleTodoCompleted (id : JsNum) (s : AppState) : AppState :=
  saveTodosToStorage { s with todos := toggleList id s.todos }

/-- `deleteTodo` (src/script.js lines 144-149): keep the items whose
id is not `===`-equal to the argument, then save. -/
def deleteTodo (id : JsNum) (s : AppState) : AppState :=
  saveTodosToStorage { s with todos := s.todos.filter fun todo => !(jsNumEq todo.id id) }

/-- `setFilter` (src/script.js lines 155-167): assign `currentFilter`;
the rest of the body toggles button CSS classes and re-renders, which
touches neither `todos` nor storage. -/
def setFilter (f : String) (s : AppState) : AppState :=
  { s with currentFilter := f }

/-- `getFilteredTodos` (src/script.js lines 227-235): filter by the
current filter string; any string other than `"pending"` and
`"completed"` falls through to the whole list. -/
def getFilteredTodos (s : AppState) : List Item :=
  if s.currentFilter = "pending" then s.todos.filter (fun todo => !todo.completed)
  else if s.currentFilter = "completed" then s.todos.filter (fun todo => todo.completed)
  else s.todos

/-- The counts triple displayed by `updateTodoCounter` (src/script.js
lines 71-78). -/
structure Counts where
  total : Nat
  pending : Nat
  completed : Nat
deriving DecidableEq, Repr

/-- The three quantities `updateTodoCounter` computes from `todos`
before writing them into the counter span. -/
def updateTodoCounter (ts : List Item) : Counts :=
  { total := ts.length
  , pending := (ts.filter fun todo => !todo.completed).length
  , completed := (ts.filter fun todo => todo.completed).length }

/-- A user-triggered mutating operation, as dispatched by the event
handlers: form submit (`addTodo` with the current clock), checkbox
change (`toggleTodoCompleted`), delete click (`deleteTodo`). -/
inductive Op where
  | add : String → Int → Op
  | toggle : JsNum → Op
  | delete : JsNum → Op

/-- Apply one operation to the state. -/
def applyOp (s : AppState) : Op → AppState
  | Op.add text now => (addTodo text now s).1
  | Op.toggle id => toggleTodoCompleted id s
  | Op.delete id => deleteTodo id s

/-- Apply a sequence of operations left to right. -/
def applyOps (s : AppState) (ops : List Op) : AppState :=
  ops.foldl applyOp s

/-- Decoding inverts encoding on any item whose id is an actual number:
the three fields come back through `Number`, `String`, `Boolean`
unchanged. -/
theorem coerceItem_encodeItem (it : Item) (h : it.id ≠ JsNum.nan) :
    coerceItem (encodeItem it) = some it := by
  obtain ⟨n, hn⟩ : ∃ n, it.id = JsNum.int n := by
    cases hid : it.id with
    | nan => exact absurd hid h
    | int n => exact ⟨n, rfl⟩
  cases it with
  | mk id text completed =>
    simp only at hn
    subst hn
    simp [coerceItem, encodeItem, encodeNum, jsGetField, List.lookup,
      jsToNumber, jsToString, jsToBoolean]

/-- Decoding inverts encoding elementwise across a whole collection of
items with numeric ids. -/
theorem coerceAll_encode (ts : List Item) (h : ∀ it ∈ ts, it.id ≠ JsNum.nan) :
    coerceAll (ts.map encodeItem) = some ts := by
  induction ts with
  | nil => rfl
  | cons t rest ih =>
    have ht : coerceItem (encodeItem t) = some t :=
      coerceItem_encodeItem t (h t (by simp))
    have hrest : coerceAll (rest.map encodeItem) = some rest :=
      ih fun it hit => h it (by simp [hit])
    simp [coerceAll, ht, hrest]

/-- C1: for every input string whose trimmed form is non-empty, `addTodo`
appends exactly one new Item to the end of the collection with text equal
to the trimmed input, `completed = false`, and an id that was previously
unused in the collection (the id is the `Date.now()` reading `now`, which
is fresh by hypothesis); the rest of the collection is unchanged and the
created Item is returned. -/
theorem addTodo_appends (s : AppState) (text : String) (now : Int)
    (htrim : jsTrim text ≠ "")
    (hfresh : ∀ it ∈ s.todos, it.id ≠ JsNum.int now) :
    ∃ newTodo : Item,
      (addTodo text now s).2 = some newTodo ∧
      newTodo.text = jsTrim text ∧
      newTodo.completed = false ∧
      (∀ it ∈ s.todos, it.id ≠ newTodo.id) ∧
      (addTodo text now s).1.todos = s.todos ++ [newTodo] := by
  refine ⟨⟨JsNum.int now, jsTrim text, false⟩, ?_, rfl, rfl, ?_, ?_⟩
  · simp [addTodo, htrim]
  · intro it hit
    exact hfresh it hit
  · simp [addTodo, htrim, saveTodosToStorage]

/-- Witness for C1 at the spec's own example input. -/
theorem addTodo_appends_witness :
    ∃ newTodo : Item,
      (addTodo " buy milk " 123 initState).2 = some newTodo ∧
      newTodo.text = jsTrim " buy milk " ∧
      newTodo.completed = false ∧
      (∀ it ∈ initState.todos, it.id ≠ newTodo.id) ∧
      (addTodo " buy milk " 123 initState).1.todos = initState.todos ++ [newTodo] :=
  addTodo_appends initState " buy milk " 123 (by decide) (by decide)

/-- C2: for every input string that is empty or whitespace-only after
trimming, `addTodo` fails (the empty-input message is set and no item is
returned) and performs no mutation: the collection, the storage slot and
the write count are unchanged. -/
theorem addTodo_blank (s : AppState) (text : String) (now : Int)
    (h : jsTrim text = "") :
    (addTodo text now s).2 = none ∧
    (addTodo text now s).1.message = "Please enter a todo before adding." ∧
    (addTodo text now s).1.todos = s.todos ∧
    (addTodo text now s).1.stored = s.stored ∧
    (addTodo text now s).1.writes = s.writes := by
  simp [addTodo, h]

/-- Witness for C2 at a whitespace-only input. -/
theorem addTodo_blank_witness :
    (addTodo "   " 0 initState).2 = none ∧
    (addTodo "   " 0 initState).1.message = "Please enter a todo before adding." ∧
    (addTodo "   " 0 initState).1.todos = initState.todos ∧
    (addTodo "   " 0 initState).1.stored = initState.stored ∧
    (addTodo "   " 0 initState).1.writes = initState.writes :=
  addTodo_blank initState "   " 0 (by decide)

/-- C5: for every collection and every active filter, `getFilteredTodos`
returns exactly the subsequence of the collection passing the filter's
predicate — `pending` keeps items with `completed = false`, `completed`
keeps items with `completed = true`, `all` keeps every item — preserving
the original insertion order (the results are sublists of the
collection). -/
theorem getFilteredTodos_spec (s : AppState) :
    getFilteredTodos (setFilter "pending" s) = s.todos.filter (fun todo => !todo.completed) ∧
    getFilteredTodos (setFilter "completed" s) = s.todos.filter (fun todo => todo.completed) ∧
    getFilteredTodos (setFilter "all" s) = s.todos ∧
    (getFilteredTodos (setFilter "pending" s)).Sublist s.todos ∧
    (getFilteredTodos (setFilter "completed" s)).Sublist s.todos := by
  refine ⟨by simp [getFilteredTodos, setFilter], by simp [getFilteredTodos, setFilter],
    by simp [getFilteredTodos, setFilter], ?_, ?_⟩ <;>
    simp [getFilteredTodos, setFilter, List.filter_sublist]

/-- C6: after every sequence of add/toggle/delete operations from any
state, the counter satisfies `total = pending + completed`. -/
theorem counts_total_split (s : AppState) (ops : List Op) :
    (updateTodoCounter (applyOps s ops).todos).total =
      (updateTodoCounter (applyOps s ops).todos).pending +
      (updateTodoCounter (applyOps s ops).todos).completed := by
  have key : ∀ ts : List Item,
      ts.length = (ts.filter fun t => !t.completed).length +
        (ts.filter fun t => t.completed).length := by
    intro ts
    induction ts with
    | nil => rfl
    | cons t rest ih =>
      by_cases h : t.completed <;> simp [List.filter, h] <;> omega
  simpa [updateTodoCounter] using key (applyOps s ops).todos

/-- C7: applying `toggleTodoCompleted` twice with the same id restores
every item (in particular every `completed` flag) to its value before the
first call. -/
theorem toggle_involution (s : AppState) (id : JsNum) :
    (toggleTodoCompleted id (toggleTodoCompleted id s)).todos = s.todos := by
  suffices h : ∀ ts : List Item, toggleList id (toggleList id ts) = ts by
    simp [toggleTodoCompleted, saveTodosToStorage, h]
  intro ts
  induction ts with
  | nil => rfl
  | cons t rest ih =>
    by_cases h : jsNumEq t.id id <;> simp [toggleList, h] <;>
      simpa [toggleList] using ih

/-- C3: for every collection of conforming items (every id an actual
number; in this embedding `text` is a string and `completed` a boolean
by type), loading the value produced by save yields a collection equal
to the original per entry, in the same order. -/
theorem load_save_roundtrip (s : AppState)
    (h : ∀ it ∈ s.todos, it.id ≠ JsNum.nan) :
    (loadTodosFromStorage (saveTodosToStorage s)).todos = s.todos := by
  simp [loadTodosFromStorage, saveTodosToStorage, loadList, coerceAll_encode s.todos h]

/-- Witness for C3 on a two-item collection. -/
theorem load_save_roundtrip_witness :
    (loadTodosFromStorage (saveTodosToStorage
      { todos := [⟨JsNum.int 7, "x", true⟩, ⟨JsNum.int 2, "", false⟩],
        currentFilter := "all", stored := none, writes := 0, message := "" })).todos =
      [⟨JsNum.int 7, "x", true⟩, ⟨JsNum.int 2, "", false⟩] :=
  load_save_roundtrip
    { todos := [⟨JsNum.int 7, "x", true⟩, ⟨JsNum.int 2, "", false⟩],
      currentFilter := "all", stored := none, writes := 0, message := "" }
    (by decide)

/-- C4: for every stored value that is absent, malformed (JSON.parse
throws), or parses to a non-array, load yields the empty collection;
the function is total, so no error reaches the caller. -/
theorem load_reset (s : AppState)
    (h : s.stored = none ∨ s.stored = some RawValue.malformed ∨
         ∃ v, s.stored = some (RawValue.json v) ∧ v.isArr = false) :
    (loadTodosFromStorage s).todos = [] := by
  rcases h with h | h | ⟨v, h, hv⟩
  · simp [loadTodosFromStorage, loadList, h]
  · simp [loadTodosFromStorage, loadList, h]
  · cases v <;> simp_all [loadTodosFromStorage, loadList, JValue.isArr]

/-- Witness for C4 on a malformed stored string. -/
theorem load_reset_witness :
    (loadTodosFromStorage { initState with stored := some RawValue.malformed }).todos = [] :=
  load_reset { initState with stored := some RawValue.malformed }
    (Or.inr (Or.inl rfl))

/-- C9: `setFilter` changes only the active filter: the item collection,
the storage slot and the write count are untouched. -/
theorem setFilter_frame (s : AppState) (f : String) :
    (setFilter f s).currentFilter = f ∧
    (setFilter f s).todos = s.todos ∧
    (setFilter f s).stored = s.stored ∧
    (setFilter f s).writes = s.writes :=
  ⟨rfl, rfl, rfl, rfl⟩

/-- A state holding one item with id 1, used to exercise toggling an
absent id on a non-empty collection. -/
def absentToggleState : AppState :=
  { todos := [⟨JsNum.int 1, "a", false⟩], currentFilter := "all",
    stored := none, writes := 0, message := "" }

/-- C8 counterexample: toggling id 5 in a collection that only holds id 1
changes no item, yet a persistence write still occurs — the save in
`toggleTodoCompleted` is unconditional, so "a write occurs if and only if
the in-memory change succeeds" fails in the only-if direction. -/
theorem toggle_absent_still_writes :
    (∀ it ∈ absentToggleState.todos, jsNumEq it.id (JsNum.int 5) = false) ∧
    (toggleTodoCompleted (JsNum.int 5) absentToggleState).todos = absentToggleState.todos ∧
    (toggleTodoCompleted (JsNum.int 5) absentToggleState).writes =
      absentToggleState.writes + 1 :=
  ⟨by decide, by decide, by decide⟩

/-- C8 (amended): `toggleTodoCompleted id` flips `completed` on exactly
the items whose id matches and copies every other item unchanged
(stated pointwise), in particular it is a structural no-op on the
collection when the id is absent; and it performs exactly one
persistence write in every case, whether or not the id is present. -/
theorem toggleTodoCompleted_spec (s : AppState) (id : JsNum) :
    List.Forall₂
      (fun a b => b = if jsNumEq a.id id then { a with completed := !a.completed } else a)
      s.todos (toggleTodoCompleted id s).todos ∧
    ((∀ it ∈ s.todos, jsNumEq it.id id = false) →
      (toggleTodoCompleted id s).todos = s.todos) ∧
    (toggleTodoCompleted id s).writes = s.writes + 1 := by
  have hpt : ∀ ts : List Item,
      List.Forall₂
        (fun a b => b = if jsNumEq a.id id then { a with completed := !a.completed } else a)
        ts (toggleList id ts) := by
    intro ts
    induction ts with
    | nil => exact List.Forall₂.nil
    | cons t rest ih => exact List.Forall₂.cons rfl ih
  have hnoop : ∀ ts : List Item, (∀ it ∈ ts, jsNumEq it.id id = false) →
      toggleList id ts = ts := by
    intro ts h
    induction ts with
    | nil => rfl
    | cons t rest ih =>
      have ht := h t (by simp)
      have := ih fun it hit => h it (by simp [hit])
      simp only [toggleList] at this ⊢
      simp [ht, this]
  refine ⟨?_, ?_, rfl⟩
  · simpa [toggleTodoCompleted, saveTodosToStorage] using hpt s.todos
  · intro h
    simpa [toggleTodoCompleted, saveTodosToStorage] using hnoop s.todos h

/-- Witness for C8's amended statement at a concrete state and id. -/
theorem toggleTodoCompleted_spec_witness :
    List.Forall₂
      (fun a b =>
        b = if jsNumEq a.id (JsNum.int 1) then { a with completed := !a.completed } else a)
      absentToggleState.todos
      (toggleTodoCompleted (JsNum.int 1) absentToggleState).todos ∧
    ((∀ it ∈ absentToggleState.todos, jsNumEq it.id (JsNum.int 1) = false) →
      (toggleTodoCompleted (JsNum.int 1) absentToggleState).todos = absentToggleState.todos) ∧
    (toggleTodoCompleted (JsNum.int 1) absentToggleState).writes =
      absentToggleState.writes + 1 :=
  toggleTodoCompleted_spec absentToggleState (JsNum.int 1)

/-- Property reads on `null` or `undefined` are the only way the element
coercion can throw; every other JS value yields a coerced item. -/
theorem coerceItem_isSome (v : JValue)
    (h1 : v.isNull = false) (h2 : v.isUndef = false) :
    ∃ it, coerceItem v = some it := by
  cases v with
  | jnull => simp [JValue.isNull] at h1
  | jundef => simp [JValue.isUndef] at h2
  | jbool b => exact ⟨_, rfl⟩
  | jnum n => exact ⟨_, rfl⟩
  | jstr t => exact ⟨_, rfl⟩
  | jarr l => exact ⟨_, rfl⟩
  | jobj fields => exact ⟨_, rfl⟩

/-- Over an array with no null (and no undefined, which parsed JSON
cannot contain) elements, the whole map succeeds, element by element,
preserving length. -/
theorem coerceAll_total (l : List JValue)
    (h : ∀ v ∈ l, v.isNull = false ∧ v.isUndef = false) :
    ∃ items, coerceAll l = some items ∧ items.length = l.length ∧
      List.Forall₂ (fun v it => coerceItem v = some it) l items := by
  induction l with
  | nil => exact ⟨[], rfl, rfl, List.Forall₂.nil⟩
  | cons v rest ih =>
    obtain ⟨it, hit⟩ := coerceItem_isSome v (h v (by simp)).1 (h v (by simp)).2
    obtain ⟨items, hitems, hlen, hall⟩ := ih fun w hw => h w (by simp [hw])
    exact ⟨it :: items, by simp [coerceAll, hit, hitems], by simp [hlen],
      List.Forall₂.cons hit hall⟩

/-- C10 counterexample: the stored value `"[null]"` parses to a
one-element array, but reading `item.id` on the null element throws, the
`try` catches it, and load returns the empty collection — not a
collection of the same length with the element coerced. -/
theorem load_null_element_resets :
    (loadTodosFromStorage
      { initState with stored := some (RawValue.json (JValue.jarr [JValue.jnull])) }).todos
      = [] ∧
    (loadTodosFromStorage
      { initState with stored := some (RawValue.json (JValue.jarr [JValue.jnull])) }).todos.length
      ≠ [JValue.jnull].length :=
  ⟨rfl, by decide⟩

/-- C10 (amended): for every stored value that parses to an array with no
null element (parsed JSON cannot contain undefined), load returns a
collection of exactly the same length, coercing each element's fields
(id via `Number`, text via `String`, completed via `Boolean`) without
rejecting or skipping any element; in particular an element with a
missing text field yields text `"undefined"` and an element with empty
text yields empty text, so the loaded collection may contain items
violating the non-empty-text property that add enforces.  An array
containing a null element instead resets the whole collection to empty. -/
theorem load_array_coercion (s : AppState) (l : List JValue)
    (hs : s.stored = some (RawValue.json (JValue.jarr l)))
    (h : ∀ v ∈ l, v.isNull = false ∧ v.isUndef = false) :
    (∃ items, coerceAll l = some items ∧
      (loadTodosFromStorage s).todos = items ∧
      items.length = l.length ∧
      List.Forall₂ (fun v it => coerceItem v = some it) l items) ∧
    coerceItem (JValue.jobj [("id", JValue.jnum 1), ("completed", JValue.jbool false)]) =
      some ⟨JsNum.int 1, "undefined", false⟩ ∧
    coerceItem (JValue.jobj [("id", JValue.jnum 2), ("text", JValue.jstr ""),
        ("completed", JValue.jbool true)]) =
      some ⟨JsNum.int 2, "", true⟩ := by
  obtain ⟨items, hitems, hlen, hall⟩ := coerceAll_total l h
  exact ⟨⟨items, hitems, by simp [loadTodosFromStorage, loadList, hs, hitems],
    hlen, hall⟩, rfl, rfl⟩

/-- Witness for C10's amended statement on a concrete two-element stored
array exercising both the missing-text and the empty-text coercions. -/
theorem load_array_coercion_witness :
    (∃ items,
      coerceAll [JValue.jobj [("id", JValue.jnum 1), ("completed", JValue.jbool false)],
        JValue.jobj [("id", JValue.jnum 2), ("text", JValue.jstr ""),
          ("completed", JValue.jbool true)]] = some items ∧
      (loadTodosFromStorage
        { initState with stored := some (RawValue.json (JValue.jarr
          [JValue.jobj [("id", JValue.jnum 1), ("completed", JValue.jbool false)],
           JValue.jobj [("id", JValue.jnum 2), ("text", JValue.jstr ""),
             ("completed", JValue.jbool true)]])) }).todos = items ∧
      items.length =
        [JValue.jobj [("id", JValue.jnum 1), ("completed", JValue.jbool false)],
         JValue.jobj [("id", JValue.jnum 2), ("text", JValue.jstr ""),
           ("completed", JValue.jbool true)]].length ∧
      List.Forall₂ (fun v it => coerceItem v = some it)
        [JValue.jobj [("id", JValue.jnum 1), ("completed", JValue.jbool false)],
         JValue.jobj [("id", JValue.jnum 2), ("text", JValue.jstr ""),
           ("completed", JValue.jbool true)]] items) ∧
    coerceItem (JValue.jobj [("id", JValue.jnum 1), ("completed", JValue.jbool false)]) =
      some ⟨JsNum.int 1, "undefined", false⟩ ∧
    coerceItem (JValue.jobj [("id", JValue.jnum 2), ("text", JValue.jstr ""),
        ("completed", JValue.jbool true)]) =
      some ⟨JsNum.int 2, "", true⟩ :=
  load_array_coercion
    { initState with stored := some (RawValue.json (JValue.jarr
      [JValue.jobj [("id", JValue.jnum 1), ("completed", JValue.jbool false)],
       JValue.jobj [("id", JValue.jnum 2), ("text", JValue.jstr ""),
         ("completed", JValue.jbool true)]])) }
    [JValue.jobj [("id", JValue.jnum 1), ("completed", JValue.jbool false)],
     JValue.jobj [("id", JValue.jnum 2), ("text", JValue.jstr ""),
       ("completed", JValue.jbool true)]]
    rfl (by simp [JValue.isNull, JValue.isUndef])

end TodoApp
